import Mathlib

/-!
Verification of the `pygit2_utils` library (`pygit2_utils/__init__.py` and
`pygit2_utils/exceptions.py`) against its specification.

The library is a thin wrapper over the `pygit2` bindings.  We shallowly embed
the wrapper's own control flow directly from the source.  The behaviour of the
underlying git engine (`pygit2.Repository.merge`'s analysis, index merging,
reference lookup, branch listing) is not part of the repository's sources, so
those collaborator operations are modelled from the specification's Commit
Graph Walker and Merge Engine sections (ancestry by parent-link reachability,
up-to-date / fast-forward classification, three-way conflict detection against
the merge base).

A repository state carries a finite commit store (oid, commit payload), a
reference table of full refnames, the refname HEAD is attached to, and the
configured user identity.  Trees are flattened `path -> blob content` maps,
which is enough to express the tree-level merge and diff properties claimed.
-/

/-- An author/committer identity (`pygit2.Signature` with name and email). -/
structure Sig where
  name : String
  email : String
deriving DecidableEq

/-- A commit object: flattened tree (path to blob content), ordered parent
ids, author identity and message. -/
structure CommitObj where
  tree : List (String × String)
  parents : List String
  author : Sig
  message : String
deriving DecidableEq

/-- The observable repository state: content-addressed commit store,
reference table (full refname to oid), the full refname HEAD is attached to,
and the configured `user.name` / `user.email`. -/
structure RepoState where
  objects : List (String × CommitObj)
  refs : List (String × String)
  head : String
  userName : String
  userEmail : String
deriving DecidableEq

/-- The exceptions the embedded operations can raise.  The first four are the
library's own exception classes from `exceptions.py`; `keyError` and
`valueError` stand for the Python builtins that escape the wrapper. -/
inductive PyErr where
  | noSuchRef : PyErr
  | noSuchBranch : PyErr
  | nothingToMerge : PyErr
  | mergeConflicts : PyErr
  | keyError : PyErr
  | valueError : String → PyErr
deriving DecidableEq

deriving instance DecidableEq for Except

/-- Structural prefix test on character lists. -/
def listPre : List Char → List Char → Bool
  | [], _ => true
  | _ :: _, [] => false
  | a :: as, b :: bs => a == b && listPre as bs

/-- `s` starts with `pre` (structural version of the string prefix test). -/
def strHasPre (s pre : String) : Bool :=
  listPre pre.data s.data

/-- Structural lexicographic comparison of character lists. -/
def chle : List Char → List Char → Bool
  | [], _ => true
  | _ :: _, [] => false
  | a :: as, b :: bs => if a == b then chle as bs else decide (a < b)

/-- Lexicographic order on strings (structural version). -/
def strle (a b : String) : Bool :=
  chle a.data b.data

/-- Split a character list at its first newline: `none` when there is no
newline, otherwise the characters before it and the characters after it. -/
def breakNl : List Char → Option (List Char × List Char)
  | [] => none
  | c :: cs =>
      if c == '\n' then some ([], cs)
      else
        match breakNl cs with
        | none => none
        | some (a, b) => some (c :: a, b)

/-- Look up a commit object by oid in the store. -/
def lookupObj (st : RepoState) (oid : String) : Option CommitObj :=
  (st.objects.find? (fun p => p.1 == oid)).map (fun p => p.2)

/-- Look up a reference's target oid by full refname. -/
def lookupRef (st : RepoState) (name : String) : Option String :=
  (st.refs.find? (fun p => p.1 == name)).map (fun p => p.2)

/-- Whether a full refname exists in the reference table. -/
def hasRef (st : RepoState) (name : String) : Bool :=
  (st.refs.find? (fun p => p.1 == name)).isSome

/-- Update an existing reference to a new target (`branch_ref.target = oid`
or `create_commit` updating the ref it was given). -/
def setRef (st : RepoState) (name : String) (oid : String) : RepoState :=
  { st with refs := st.refs.map (fun p => if p.1 == name then (p.1, oid) else p) }

/-- Append a freshly created commit object to the store. -/
def addObject (st : RepoState) (oid : String) (c : CommitObj) : RepoState :=
  { st with objects := st.objects ++ [(oid, c)] }

/-- Parent ids of a commit, empty for an unknown oid. -/
def parentsOf (st : RepoState) (oid : String) : List String :=
  ((lookupObj st oid).map (fun c => c.parents)).getD []

/-- Fuel bound for parent-link walks: a simple path in the acyclic commit
graph visits each stored object at most once. -/
def reachFuel (st : RepoState) : Nat :=
  st.objects.length + 1

/-- Modelled from the spec (Commit Graph Walker): `reaches st fuel src dst`
holds when `dst` is reachable from `src` along parent links, i.e. `dst` is an
ancestor of `src` (reflexively). -/
def reaches (st : RepoState) : Nat → String → String → Bool
  | 0, _, _ => false
  | fuel + 1, src, dst =>
      src == dst || (parentsOf st src).any (fun p => reaches st fuel p dst)

/-- Total number of parent links recorded in the store, used to bound the
breadth-first ancestor walk. -/
def edgeCount (st : RepoState) : Nat :=
  (st.objects.map (fun p => p.2.parents.length)).sum

/-- Fuel for the breadth-first ancestor enumeration. -/
def bfsFuel (st : RepoState) : Nat :=
  edgeCount st + st.objects.length + 2

/-- Breadth-first enumeration of the ancestors of the frontier, each oid
listed once in discovery order. -/
def ancestorList (st : RepoState) : Nat → List String → List String → List String
  | 0, _, visited => visited
  | _ + 1, [], visited => visited
  | fuel + 1, x :: rest, visited =>
      if visited.contains x then ancestorList st fuel rest visited
      else ancestorList st fuel (rest ++ parentsOf st x) (visited ++ [x])

/-- Modelled from the spec (Commit Graph Walker `mergeBase`): the first
ancestor of `a`, in breadth-first discovery order, that is also an ancestor
of `b`; `none` signals unrelated histories. -/
def mergeBase (st : RepoState) (a b : String) : Option String :=
  (ancestorList st (bfsFuel st) [a] []).find?
    (fun c => reaches st (reachFuel st) b c)

/-- Blob content at a path of a flattened tree. -/
def treeLookup (t : List (String × String)) (p : String) : Option String :=
  (t.find? (fun e => e.1 == p)).map (fun e => e.2)

/-- The flattened tree of a commit, empty for an unknown oid. -/
def treeOf (st : RepoState) (oid : String) : List (String × String) :=
  ((lookupObj st oid).map (fun c => c.tree)).getD []

/-- The deduplicated paths mentioned by any of the given trees. -/
def pathsOf (ts : List (List (String × String))) : List String :=
  (ts.flatMap (fun t => t.map (fun e => e.1))).dedup

/-- Modelled from the spec (Merge Engine, ThreeWay): a path conflicts when
both sides changed it away from the base and disagree with each other. -/
def conflictAt (base cur inc : Option String) : Bool :=
  cur != base && inc != base && cur != inc

/-- The flattened tree of the merge base of `cur` and `inc` (empty when the
histories are unrelated). -/
def baseTreeOf (st : RepoState) (cur inc : String) : List (String × String) :=
  match mergeBase st cur inc with
  | some b => treeOf st b
  | none => []

/-- Modelled from the spec (Merge Engine): whether the three-way merge of
`cur` and `inc` over their merge base has a conflicting path.  This is the
condition under which `index.write_tree()` fails in the source. -/
def hasMergeConflict (st : RepoState) (cur inc : String) : Bool :=
  let baseT := baseTreeOf st cur inc
  let curT := treeOf st cur
  let incT := treeOf st inc
  (pathsOf [baseT, curT, incT]).any
    (fun p => conflictAt (treeLookup baseT p) (treeLookup curT p) (treeLookup incT p))

/-- Modelled from the spec (Merge Engine): the merged tree, taking the
changed side for paths touched by one side and either side when both agree. -/
def mergedTree (st : RepoState) (cur inc : String) : List (String × String) :=
  let baseT := baseTreeOf st cur inc
  let curT := treeOf st cur
  let incT := treeOf st inc
  (pathsOf [baseT, curT, incT]).filterMap
    (fun p =>
      let b := treeLookup baseT p
      let c := treeLookup curT p
      let i := treeLookup incT p
      let r := if c == b then i else if i == b then c else c
      r.map (fun v => (p, v)))

/-- The classification of `pygit2.Repository.merge`'s result, modelled from
the spec's Merge Engine Classify step: up to date when the incoming commit is
already an ancestor of (or equal to) the current HEAD tip, fast-forward when
the current tip is an ancestor of the incoming commit, three-way otherwise. -/
inductive MergeKind where
  | uptodate : MergeKind
  | fastforward : MergeKind
  | normal : MergeKind
deriving DecidableEq

/-- Classify a merge of `inc` into the current tip `cur`. -/
def mergeAnalysis (st : RepoState) (cur inc : String) : MergeKind :=
  if reaches st (reachFuel st) cur inc then MergeKind.uptodate
  else if reaches st (reachFuel st) inc cur then MergeKind.fastforward
  else MergeKind.normal

/-- A fresh oid for a newly created commit: one longer than every key in the
store, hence distinct from all of them.  Abstracts pygit2's content-addressed
digest of the new commit, which differs from every stored id. -/
def freshOid (st : RepoState) : String :=
  "m" ++ String.join (st.objects.map (fun p => p.1))

/-- `lookup_reference(branch_name).resolve()` with the source's
`except ValueError` fallback to `refs/heads/<branch_name>`: a name that is
already a full refname is looked up directly, any other name raises
`ValueError` and is retried under `refs/heads/`; a missing refname raises
`KeyError` (`none` here). -/
def resolveRefName (st : RepoState) (name : String) : Option String :=
  if strHasPre name "refs/" then
    if hasRef st name then some name else none
  else
    if hasRef st ("refs/heads/" ++ name) then some ("refs/heads/" ++ name)
    else none

namespace GitRepo

/-- Embeds `GitRepo.merge` from `pygit2_utils/__init__.py`: default message,
merge analysis of the incoming commit against HEAD, branch reference lookup
with the `ValueError` fallback, then the up-to-date / fast-forward /
three-way classification.  The three-way branch writes the merged tree (or
raises `MergeConflictsError` when `write_tree` fails), creates a commit with
parents `[HEAD tip, commitid]` and updates the reference HEAD is attached to.
Returns the possibly updated state together with the raised exception or the
returned sha. -/
def merge (st : RepoState) (commitid : String) (branchName : String)
    (message? username? useremail? : Option String) :
    RepoState × Except PyErr String :=
  let message := message?.getD ("Merge " ++ commitid ++ " into " ++ branchName)
  match lookupObj st commitid with
  | none => (st, Except.error PyErr.keyError)
  | some _ =>
    match resolveRefName st branchName with
    | none => (st, Except.error PyErr.keyError)
    | some branchRefName =>
      match lookupRef st st.head with
      | none => (st, Except.error PyErr.keyError)
      | some cur =>
        let username := username?.getD st.userName
        let useremail := useremail?.getD st.userEmail
        let author : Sig := ⟨username, useremail⟩
        match mergeAnalysis st cur commitid with
        | MergeKind.uptodate => (st, Except.error PyErr.nothingToMerge)
        | MergeKind.fastforward =>
            (setRef st branchRefName commitid, Except.ok commitid)
        | MergeKind.normal =>
            if hasMergeConflict st cur commitid then
              (st, Except.error PyErr.mergeConflicts)
            else
              let oid := freshOid st
              let st1 := addObject st oid
                ⟨mergedTree st cur commitid, [cur, commitid], author, message⟩
              (setRef st1 st.head oid, Except.ok oid)

end GitRepo

/-- A path-level change record produced by the tree differ. -/
inductive ChangeKind where
  | added : ChangeKind
  | deleted : ChangeKind
  | modified : ChangeKind
deriving DecidableEq

/-- One entry of a tree diff. -/
structure ChangeRecord where
  path : String
  kind : ChangeKind
  oldBlob : Option String
  newBlob : Option String
deriving DecidableEq

/-- Insert a path into a lexicographically sorted list of paths. -/
def insertSorted (p : String) : List String → List String
  | [] => [p]
  | q :: rest => if strle p q then p :: q :: rest else q :: insertSorted p rest

/-- Sort paths lexicographically (insertion sort). -/
def sortPaths (l : List String) : List String :=
  l.foldr insertSorted []

/-- Modelled from the spec (Tree Differ): merge-join over the two flattened
trees' paths in sorted order; entries only in the first tree are `deleted`,
only in the second `added`, in both with differing content `modified`, and
identical entries are skipped. -/
def treeDiff (a b : List (String × String)) : List ChangeRecord :=
  (sortPaths (pathsOf [a, b])).filterMap
    (fun p =>
      match treeLookup a p, treeLookup b p with
      | some x, none => some ⟨p, ChangeKind.deleted, some x, none⟩
      | none, some y => some ⟨p, ChangeKind.added, none, some y⟩
      | some x, some y =>
          if x == y then none else some ⟨p, ChangeKind.modified, some x, some y⟩
      | none, none => none)

/-- The value returned by `GitRepo.diff`: the Python function returns the
plain string `''` for a merge commit, a `pygit2.Diff` object otherwise, and
the uninspected working-tree diff when called with no arguments. -/
inductive DiffVal where
  | text : String → DiffVal
  | diffObj : List ChangeRecord → DiffVal
  | workdir : DiffVal
deriving DecidableEq

namespace GitRepo

/-- Embeds `GitRepo.diff`: with no commit ids, the working-tree diff; with
one id, `NoSuchRefError` when it does not resolve, the empty string for a
merge commit (more than one parent), the diff against the single parent
otherwise, and the diff from the empty tree for a root commit; with two ids,
the diff of their trees (`KeyError` when either does not resolve). -/
def diff (st : RepoState) (commitid1? commitid2? : Option String) :
    Except PyErr DiffVal :=
  match commitid1?, commitid2? with
  | none, none => Except.ok DiffVal.workdir
  | some c1, some c2 =>
      match lookupObj st c1, lookupObj st c2 with
      | some o1, some o2 => Except.ok (DiffVal.diffObj (treeDiff o1.tree o2.tree))
      | _, _ => Except.error PyErr.keyError
  | c1?, c2? =>
      let commitid := (([c1?, c2?].filterMap id).headD "")
      match lookupObj st commitid with
      | none => Except.error PyErr.noSuchRef
      | some commit =>
          if commit.parents.length > 1 then Except.ok (DiffVal.text "")
          else if commit.parents.length == 1 then
            match lookupObj st (commit.parents.headD "") with
            | none => Except.error PyErr.keyError
            | some parent => Except.ok (DiffVal.diffObj (treeDiff parent.tree commit.tree))
          else Except.ok (DiffVal.diffObj (treeDiff [] commit.tree))

end GitRepo

/-- The allowed `status` values of `list_branches`, in source order. -/
def statuses : List String := ["remote", "local", "all"]

/-- Shorthand names of the local branches (`refs/heads/` entries), modelling
`listall_branches(GIT_BRANCH_LOCAL)`. -/
def localBranchNames (st : RepoState) : List String :=
  st.refs.filterMap
    (fun p => if strHasPre p.1 "refs/heads/" then some (p.1.drop 11) else none)

/-- Shorthand names of the remote branches (`refs/remotes/` entries),
modelling `listall_branches(GIT_BRANCH_REMOTE)`. -/
def remoteBranchNames (st : RepoState) : List String :=
  st.refs.filterMap
    (fun p => if strHasPre p.1 "refs/remotes/" then some (p.1.drop 13) else none)

namespace GitRepo

/-- Embeds `GitRepo.list_branches`: a missing `status` argument defaults to
`'all'`; a value outside `statuses` raises `ValueError('status is not in %s'
% statuses)`; otherwise the branches of the requested scope are returned. -/
def list_branches (st : RepoState) (status? : Option String) :
    Except PyErr (List String) :=
  let status := status?.getD "all"
  if statuses.contains status then
    if status == "remote" then Except.ok (remoteBranchNames st)
    else if status == "local" then Except.ok (localBranchNames st)
    else Except.ok (localBranchNames st ++ remoteBranchNames st)
  else
    Except.error (PyErr.valueError "status is not in ['remote', 'local', 'all']")

end GitRepo

/-- `lookup_branch(name, scope)`: the full refname of the branch when it
exists in the requested scope (`refs/heads/` for local, `refs/remotes/` for
remote). -/
def lookup_branch (st : RepoState) (name : String) (remote : Bool) : Option String :=
  let full := (if remote then "refs/remotes/" else "refs/heads/") ++ name
  if hasRef st full then some full else none

/-- The shared lookup of `checkout` and `head_of_branch`: the local branch is
tried first, then the remote one. -/
def resolveBranch (st : RepoState) (name : String) : Option String :=
  match lookup_branch st name false with
  | some r => some r
  | none => lookup_branch st name true

namespace GitRepo

/-- Embeds `GitRepo.checkout`: the branch is looked up locally then remotely;
when neither exists `NoSuchBranchError` is raised, otherwise HEAD moves to
the found reference. -/
def checkout (st : RepoState) (name : String) : RepoState × Except PyErr Unit :=
  match resolveBranch st name with
  | none => (st, Except.error PyErr.noSuchBranch)
  | some r => ({ st with head := r }, Except.ok ())

/-- Embeds `GitRepo.head_of_branch`: the branch is looked up locally then
remotely; when neither exists `NoSuchBranchError` is raised, otherwise the
commit object the reference points at is returned. -/
def head_of_branch (st : RepoState) (name : String) : Except PyErr CommitObj :=
  match resolveBranch st name with
  | none => Except.error PyErr.noSuchBranch
  | some r =>
      match lookupRef st r with
      | none => Except.error PyErr.keyError
      | some oid =>
          match lookupObj st oid with
          | none => Except.error PyErr.keyError
          | some c => Except.ok c

end GitRepo

/-- The per-commit data `get_patch` renders: the resolved commit's id hex,
author name and email, the formatted date string produced by `datetime`, the
commit message, and the `.patch` text of the diff produced by
`self.diff(...)` — the latter two collaborators are external to the
repository's sources, so their outputs enter as opaque strings. -/
structure PatchCommit where
  oidHex : String
  authorName : String
  authorEmail : String
  dateStr : String
  message : String
  patchText : String
deriving DecidableEq

/-- The source's subject/message split: `commit.message.split('\n', 1)` when
the message contains a newline, otherwise the whole message is the subject
and the remainder is empty. -/
def splitSubject (msg : String) : String × String :=
  match breakNl msg.data with
  | none => (msg, "")
  | some (a, b) => (⟨a⟩, ⟨b⟩)

/-- The `%`-template of `get_patch`, byte for byte. -/
def patchBlock (c : PatchCommit) (subject msg : String) : String :=
  "From " ++ c.oidHex ++ " Mon Sep 17 00:00:00 2001\n" ++
  "From: " ++ c.authorName ++ " <" ++ c.authorEmail ++ ">\n" ++
  "Date: " ++ c.dateStr ++ "\n" ++
  "Subject: " ++ subject ++ "\n\n" ++
  msg ++ "\n---\n\n" ++
  c.patchText ++ "\n"

/-- One iteration of `get_patch`'s loop: split the message, prefix the
subject with `[PATCH cnt+1/N]` when more than one commit is rendered, and
fill the template. -/
def renderOne (n : Nat) (cnt : Nat) (c : PatchCommit) : String :=
  let subject := (splitSubject c.message).1
  let msg := (splitSubject c.message).2
  let subject :=
    if n > 1 then
      "[PATCH " ++ toString (cnt + 1) ++ "/" ++ toString n ++ "] " ++ subject
    else subject
  patchBlock c subject msg

namespace GitRepo

/-- Embeds `GitRepo.get_patch`'s rendering loop: starting from the empty
string, append the rendered block of each commit in order. -/
def get_patch (cs : List PatchCommit) : String :=
  cs.enum.foldl (fun acc ic => acc ++ renderOne cs.length ic.1 ic.2) ""

end GitRepo

/-- The exception classes of `exceptions.py` together with Python's builtin
`Exception` base. -/
inductive ExcClass where
  | exc : ExcClass
  | pyGitUtilsError : ExcClass
  | noSuchRefError : ExcClass
  | noSuchBranchError : ExcClass
  | nothingToMergeError : ExcClass
  | mergeConflictsError : ExcClass
deriving DecidableEq

/-- The base class of each exception class, as written in `exceptions.py`. -/
def parentClass : ExcClass → Option ExcClass
  | ExcClass.exc => none
  | ExcClass.pyGitUtilsError => some ExcClass.exc
  | ExcClass.noSuchRefError => some ExcClass.pyGitUtilsError
  | ExcClass.noSuchBranchError => some ExcClass.pyGitUtilsError
  | ExcClass.nothingToMergeError => some ExcClass.pyGitUtilsError
  | ExcClass.mergeConflictsError => some ExcClass.pyGitUtilsError

/-- The `message` class attribute of each class (`none` for the builtin
`Exception`, which defines no such attribute). -/
def classMessage : ExcClass → Option String
  | ExcClass.exc => none
  | ExcClass.pyGitUtilsError => some "An error occured in pygit2_utils"
  | ExcClass.noSuchRefError => some "This reference could not be found"
  | ExcClass.noSuchBranchError => some "This branch could not be found"
  | ExcClass.nothingToMergeError => some "Nothing to merge, these branches are already in sync"
  | ExcClass.mergeConflictsError => some "Can not merge these branches, there is a conflict"

/-- Reflexive-transitive subclass test along `parentClass` links (the chain
has depth at most two, fuel six is ample). -/
def subclassFuel : Nat → ExcClass → ExcClass → Bool
  | 0, _, _ => false
  | n + 1, c, d =>
      c == d ||
      (match parentClass c with
       | some p => subclassFuel n p d
       | none => false)

/-- `issubclass` over the embedded class table. -/
def isSubclassOf (c d : ExcClass) : Bool :=
  subclassFuel 6 c d

/-- The library-specific exception class an embedded error corresponds to:
the four classes of `exceptions.py` map to themselves, the Python builtins
(`KeyError`, `ValueError`) to `none`. -/
def raisedClass : PyErr → Option ExcClass
  | PyErr.noSuchRef => some ExcClass.noSuchRefError
  | PyErr.noSuchBranch => some ExcClass.noSuchBranchError
  | PyErr.nothingToMerge => some ExcClass.nothingToMergeError
  | PyErr.mergeConflicts => some ExcClass.mergeConflictsError
  | PyErr.keyError => none
  | PyErr.valueError _ => none

/-- Written from the spec's words: the first line of a commit message. -/
def specFirstLine (msg : String) : String :=
  ⟨msg.data.takeWhile (fun c => !(c == '\n'))⟩

/-- Written from the spec's words: the remaining message after its first
line. -/
def specRemaining (msg : String) : String :=
  ⟨(msg.data.dropWhile (fun c => !(c == '\n'))).drop 1⟩

/-- Written from the spec's words: the text block of the `i`-th of `n`
commits, `From <commit-id> <fixed-sentinel-date>`, `From:`, `Date:`,
`Subject:` (prefixed with `[PATCH i/N]` only when `n > 1`), blank line,
remaining message, `---`, blank line, unified diff text, newline. -/
def specBlock (n : Nat) (i : Nat) (c : PatchCommit) : String :=
  "From " ++ c.oidHex ++ " Mon Sep 17 00:00:00 2001\n" ++
  "From: " ++ c.authorName ++ " <" ++ c.authorEmail ++ ">\n" ++
  "Date: " ++ c.dateStr ++ "\n" ++
  "Subject: " ++
    (if n > 1 then "[PATCH " ++ toString (i + 1) ++ "/" ++ toString n ++ "] " else "") ++
    specFirstLine c.message ++ "\n\n" ++
  specRemaining c.message ++ "\n---\n\n" ++
  c.patchText ++ "\n"

/-- Written from the spec's words: the blocks of a patch series, one per
commit in order. -/
def specPatchBlocks (cs : List PatchCommit) : List String :=
  cs.enum.map (fun ic => specBlock cs.length ic.1 ic.2)

/-- A small concrete repository used by the witnesses: root `b`, children
`c1` (modifies `f`), `c2` (leaves `f`, adds `g`), `cc` (modifies `f`
differently from `c1`), and a merge commit `mrg` of `c1` and `c2`;
HEAD is attached to `master`, which points at `c1`. -/
def exRepo : RepoState :=
  { objects := [
      ("b", ⟨[("f", "0")], [], ⟨"An", "ae"⟩, "base"⟩),
      ("c1", ⟨[("f", "1")], ["b"], ⟨"An", "ae"⟩, "one"⟩),
      ("c2", ⟨[("f", "0"), ("g", "2")], ["b"], ⟨"An", "ae"⟩, "two"⟩),
      ("cc", ⟨[("f", "9")], ["b"], ⟨"An", "ae"⟩, "conf"⟩),
      ("mrg", ⟨[("f", "1"), ("g", "2")], ["c1", "c2"], ⟨"An", "ae"⟩, "m"⟩)],
    refs := [("refs/heads/master", "c1"), ("refs/heads/dev", "c1"),
             ("refs/remotes/origin/master", "c2")],
    head := "refs/heads/master",
    userName := "u", userEmail := "u@e" }

/-- A repository whose HEAD is attached to `dev` while `master` lags at the
root `b`: the input on which the stated C4 claim fails. -/
def devHeadRepo : RepoState :=
  { objects := [
      ("b", ⟨[("f", "0")], [], ⟨"An", "ae"⟩, "base"⟩),
      ("c1", ⟨[("f", "1")], ["b"], ⟨"An", "ae"⟩, "one"⟩),
      ("c2", ⟨[("f", "0"), ("g", "2")], ["b"], ⟨"An", "ae"⟩, "two"⟩)],
    refs := [("refs/heads/master", "b"), ("refs/heads/dev", "c1")],
    head := "refs/heads/dev",
    userName := "u", userEmail := "u@e" }

/-- A repository with two parentless commits from unrelated histories. -/
def twoRootRepo : RepoState :=
  { objects := [
      ("r1", ⟨[("a", "1")], [], ⟨"An", "ae"⟩, "r1"⟩),
      ("r2", ⟨[("a", "2")], [], ⟨"An", "ae"⟩, "r2"⟩)],
    refs := [("refs/heads/master", "r1")],
    head := "refs/heads/master",
    userName := "u", userEmail := "u@e" }

/-!  Helper lemmas shared by the claim theorems.  -/

theorem str_foldl_append (l : List String) (acc : String) :
    l.foldl (fun r s => r ++ s) acc = acc ++ l.foldl (fun r s => r ++ s) "" := by
  induction l generalizing acc with
  | nil => simp [List.foldl, String.append_empty]
  | cons a tl ih =>
      simp only [List.foldl]
      rw [ih (acc ++ a), ih ("" ++ a), String.empty_append, String.append_assoc]

theorem str_join_cons (a : String) (l : List String) :
    String.join (a :: l) = a ++ String.join l := by
  unfold String.join
  simp only [List.foldl]
  rw [str_foldl_append l ("" ++ a), String.empty_append]

theorem str_join_length (l : List String) :
    (String.join l).length = (l.map String.length).sum := by
  induction l with
  | nil => rfl
  | cons a tl ih => rw [str_join_cons, String.length_append, List.map_cons, List.sum_cons, ih]

theorem freshOid_length (st : RepoState) (k : String)
    (hk : k ∈ st.objects.map (fun p => p.1)) :
    k.length < (freshOid st).length := by
  unfold freshOid
  rw [String.length_append, str_join_length]
  have h1 : k.length ∈ (st.objects.map (fun p => p.1)).map String.length :=
    List.mem_map_of_mem String.length hk
  have h2 : k.length ≤ ((st.objects.map (fun p => p.1)).map String.length).sum :=
    List.single_le_sum (fun x _ => Nat.zero_le x) k.length h1
  have h3 : ("m" : String).length = 1 := rfl
  omega

theorem lookupObj_freshOid (st : RepoState) : lookupObj st (freshOid st) = none := by
  unfold lookupObj
  have h : st.objects.find? (fun p => p.1 == freshOid st) = none := by
    rw [List.find?_eq_none]
    intro p hp hbeq
    have he : p.1 = freshOid st := by simpa using hbeq
    have hlt := freshOid_length st p.1 (List.mem_map_of_mem (fun q => q.1) hp)
    rw [he] at hlt
    omega
  rw [h]
  rfl

theorem find?_setRef_list (l : List (String × String)) (n v : String)
    (h : (l.find? (fun p => p.1 == n)).isSome = true) :
    ((l.map (fun p => if p.1 == n then (p.1, v) else p)).find?
        (fun p => p.1 == n)).map (fun p => p.2) = some v := by
  induction l with
  | nil => simp at h
  | cons a tl ih =>
      simp only [List.map_cons]
      by_cases hb : (a.1 == n) = true
      · rw [if_pos hb, List.find?_cons_of_pos _ (by simpa using hb)]
        rfl
      · rw [if_neg hb, List.find?_cons_of_neg _ (by simpa using hb)]
        rw [List.find?_cons_of_neg _ (by simpa using hb)] at h
        exact ih h

theorem lookupRef_setRef (st : RepoState) (n v : String) (h : hasRef st n = true) :
    lookupRef (setRef st n v) n = some v := by
  unfold hasRef at h
  unfold lookupRef setRef
  exact find?_setRef_list st.refs n v h

theorem resolveRefName_hasRef (st : RepoState) (n r : String)
    (h : resolveRefName st n = some r) : hasRef st r = true := by
  unfold resolveRefName at h
  by_cases h1 : strHasPre n "refs/"
  · rw [if_pos h1] at h
    by_cases h2 : hasRef st n
    · rw [if_pos h2] at h
      cases h
      exact h2
    · simp [h2] at h
  · rw [if_neg h1] at h
    by_cases h2 : hasRef st ("refs/heads/" ++ n)
    · rw [if_pos h2] at h
      cases h
      exact h2
    · simp [h2] at h

theorem lookupObj_addObject (st : RepoState) (o : String) (c : CommitObj)
    (h : lookupObj st o = none) :
    lookupObj (addObject st o c) o = some c := by
  unfold lookupObj at h ⊢
  unfold addObject
  have hfind : st.objects.find? (fun p => p.1 == o) = none := by
    cases hf : st.objects.find? (fun p => p.1 == o) with
    | none => rfl
    | some p => rw [hf] at h; simp at h
  simp only [List.find?_append, hfind, Option.none_or]
  simp [List.find?]

theorem mergeAnalysis_uptodate (st : RepoState) (cur inc : String)
    (h : reaches st (reachFuel st) cur inc = true) :
    mergeAnalysis st cur inc = MergeKind.uptodate := by
  unfold mergeAnalysis
  rw [if_pos h]

theorem mergeAnalysis_fastforward (st : RepoState) (cur inc : String)
    (h1 : reaches st (reachFuel st) cur inc = false)
    (h2 : reaches st (reachFuel st) inc cur = true) :
    mergeAnalysis st cur inc = MergeKind.fastforward := by
  unfold mergeAnalysis
  rw [if_neg (by simp [h1]), if_pos h2]

theorem mergeAnalysis_normal (st : RepoState) (cur inc : String)
    (h1 : reaches st (reachFuel st) cur inc = false)
    (h2 : reaches st (reachFuel st) inc cur = false) :
    mergeAnalysis st cur inc = MergeKind.normal := by
  unfold mergeAnalysis
  rw [if_neg (by simp [h1]), if_neg (by simp [h2])]

theorem breakNl_none (l : List Char) (h : breakNl l = none) :
    l.takeWhile (fun c => !(c == '\n')) = l
    ∧ (l.dropWhile (fun c => !(c == '\n'))).drop 1 = [] := by
  induction l with
  | nil => simp
  | cons c cs ih =>
      unfold breakNl at h
      by_cases hc : (c == '\n') = true
      · rw [if_pos hc] at h
        cases h
      · rw [if_neg hc] at h
        cases hb : breakNl cs with
        | none =>
            have := ih hb
            simp [List.takeWhile, List.dropWhile, hc, this.1, this.2]
        | some ab => rw [hb] at h; cases h

theorem breakNl_some (l : List Char) (a b : List Char) (h : breakNl l = some (a, b)) :
    l.takeWhile (fun c => !(c == '\n')) = a
    ∧ (l.dropWhile (fun c => !(c == '\n'))).drop 1 = b := by
  induction l generalizing a b with
  | nil => simp [breakNl] at h
  | cons c cs ih =>
      unfold breakNl at h
      by_cases hc : (c == '\n') = true
      · rw [if_pos hc] at h
        have he : c = '\n' := by simpa using hc
        cases h
        simp [List.takeWhile, List.dropWhile, he]
      · rw [if_neg hc] at h
        cases hb : breakNl cs with
        | none => rw [hb] at h; cases h
        | some ab =>
            rw [hb] at h
            cases h
            have := ih ab.1 ab.2 (by rw [hb])
            simp [List.takeWhile, List.dropWhile, hc, this.1, this.2]

theorem splitSubject_fst (msg : String) :
    (splitSubject msg).1 = specFirstLine msg := by
  unfold splitSubject specFirstLine
  cases hb : breakNl msg.data with
  | none => rw [(breakNl_none msg.data hb).1]
  | some ab =>
      cases ab with
      | mk a b => rw [(breakNl_some msg.data a b hb).1]

theorem splitSubject_snd (msg : String) :
    (splitSubject msg).2 = specRemaining msg := by
  unfold splitSubject specRemaining
  cases hb : breakNl msg.data with
  | none => rw [(breakNl_none msg.data hb).2]
  | some ab =>
      cases ab with
      | mk a b => rw [(breakNl_some msg.data a b hb).2]

theorem renderOne_eq_specBlock (n i : Nat) (c : PatchCommit) :
    renderOne n i c = specBlock n i c := by
  unfold renderOne specBlock patchBlock
  rw [splitSubject_fst, splitSubject_snd]
  by_cases hn : n > 1
  · simp [if_pos hn, String.append_assoc]
  · simp [if_neg hn, String.append_assoc, String.empty_append]

theorem foldl_render (n : Nat) (l : List (Nat × PatchCommit)) (acc : String) :
    l.foldl (fun a ic => a ++ renderOne n ic.1 ic.2) acc
      = acc ++ String.join (l.map (fun ic => renderOne n ic.1 ic.2)) := by
  induction l generalizing acc with
  | nil => simp [String.join, String.append_empty]
  | cons a tl ih =>
      simp only [List.foldl, List.map_cons]
      rw [ih, str_join_cons, String.append_assoc]

theorem append_tail_blank (x t : String) :
    x ++ (t ++ "\n") ++ "\n" = (x ++ t) ++ "\n\n" := by
  have hnn : ("\n" ++ "\n" : String) = "\n\n" := by decide
  rw [String.append_assoc, String.append_assoc, String.append_assoc, ← hnn]

/-- C1: when the target branch (the branch HEAD is attached to, per `hres`)
is already up to date with the incoming commit — the incoming commit is
reachable from the current tip, which covers merging a branch into itself or
into one of its ancestors — `merge` raises `NothingToMergeError`, an outcome
distinct from every success value, and returns the repository state exactly
as it was, so the branch reference is unchanged. -/
theorem merge_uptodate_nothingToMerge
    (st : RepoState) (commitid branchName : String)
    (message? username? useremail? : Option String)
    (cur : String) (cobj : CommitObj)
    (hres : resolveRefName st branchName = some st.head)
    (hcur : lookupRef st st.head = some cur)
    (hobj : lookupObj st commitid = some cobj)
    (hup : reaches st (reachFuel st) cur commitid = true) :
    GitRepo.merge st commitid branchName message? username? useremail?
        = (st, Except.error PyErr.nothingToMerge)
    ∧ ∀ sha : String,
        (GitRepo.merge st commitid branchName message? username? useremail?).2
          ≠ Except.ok sha := by
  have hm : GitRepo.merge st commitid branchName message? username? useremail?
      = (st, Except.error PyErr.nothingToMerge) := by
    simp only [GitRepo.merge, hobj, hres, hcur, mergeAnalysis_uptodate st cur commitid hup]
  exact ⟨hm, by rw [hm]; intro sha h; cases h⟩

/-- C1 witness: in `exRepo`, HEAD is on `master` at `c1` whose ancestor `b`
is merged back in; the merge reports `NothingToMergeError` and the state is
untouched. -/
theorem merge_uptodate_nothingToMerge_witness :
    resolveRefName exRepo "master" = some exRepo.head
    ∧ lookupRef exRepo exRepo.head = some "c1"
    ∧ lookupObj exRepo "b" = some ⟨[("f", "0")], [], ⟨"An", "ae"⟩, "base"⟩
    ∧ reaches exRepo (reachFuel exRepo) "c1" "b" = true
    ∧ GitRepo.merge exRepo "b" "master" none none none
        = (exRepo, Except.error PyErr.nothingToMerge) :=
  ⟨by decide, by decide, by decide, by decide,
   (merge_uptodate_nothingToMerge exRepo "b" "master" none none none "c1"
      ⟨[("f", "0")], [], ⟨"An", "ae"⟩, "base"⟩
      (by decide) (by decide) (by decide) (by decide)).1⟩

/-- C2: when the merge of the incoming commit into the current tip is
neither up to date nor a fast-forward and the three-way merge over the merge
base has a path both sides changed to different content, `merge` raises
`MergeConflictsError` and returns the state exactly as it was: the branch
reference is not moved and no commit object is added (all-or-nothing). -/
theorem merge_conflict_mergeConflictsError
    (st : RepoState) (commitid branchName : String)
    (message? username? useremail? : Option String)
    (cur : String) (cobj : CommitObj)
    (hres : resolveRefName st branchName = some st.head)
    (hcur : lookupRef st st.head = some cur)
    (hobj : lookupObj st commitid = some cobj)
    (hnup : reaches st (reachFuel st) cur commitid = false)
    (hnff : reaches st (reachFuel st) commitid cur = false)
    (hconf : hasMergeConflict st cur commitid = true) :
    GitRepo.merge st commitid branchName message? username? useremail?
        = (st, Except.error PyErr.mergeConflicts) := by
  simp only [GitRepo.merge, hobj, hres, hcur,
    mergeAnalysis_normal st cur commitid hnup hnff, hconf, if_pos]

/-- C2 witness: in `exRepo`, `c1` and `cc` both changed path `f` away from
the base `b` with different content; merging `cc` into `master` reports
`MergeConflictsError` and leaves the state untouched. -/
theorem merge_conflict_mergeConflictsError_witness :
    resolveRefName exRepo "master" = some exRepo.head
    ∧ lookupRef exRepo exRepo.head = some "c1"
    ∧ lookupObj exRepo "cc" = some ⟨[("f", "9")], ["b"], ⟨"An", "ae"⟩, "conf"⟩
    ∧ reaches exRepo (reachFuel exRepo) "c1" "cc" = false
    ∧ reaches exRepo (reachFuel exRepo) "cc" "c1" = false
    ∧ hasMergeConflict exRepo "c1" "cc" = true
    ∧ GitRepo.merge exRepo "cc" "master" none none none
        = (exRepo, Except.error PyErr.mergeConflicts) :=
  ⟨by decide, by decide, by decide, by decide, by decide, by decide,
   merge_conflict_mergeConflictsError exRepo "cc" "master" none none none "c1"
     ⟨[("f", "9")], ["b"], ⟨"An", "ae"⟩, "conf"⟩
     (by decide) (by decide) (by decide) (by decide) (by decide) (by decide)⟩

/-- C3: when the current tip is a strict ancestor of the incoming commit
(the incoming commit reaches the tip but not conversely, which in an acyclic
history is exactly strict ancestry), `merge` fast-forwards: the object store
gains no commit and the resolved branch reference ends up equal to the
incoming commit id, which is also the returned sha. -/
theorem merge_fastforward_moves_ref
    (st : RepoState) (commitid branchName rname : String)
    (message? username? useremail? : Option String)
    (cur : String) (cobj : CommitObj)
    (hres : resolveRefName st branchName = some rname)
    (hcur : lookupRef st st.head = some cur)
    (hobj : lookupObj st commitid = some cobj)
    (hnup : reaches st (reachFuel st) cur commitid = false)
    (hff : reaches st (reachFuel st) commitid cur = true) :
    GitRepo.merge st commitid branchName message? username? useremail?
        = (setRef st rname commitid, Except.ok commitid)
    ∧ (GitRepo.merge st commitid branchName message? username? useremail?).1.objects
        = st.objects
    ∧ lookupRef (GitRepo.merge st commitid branchName message? username? useremail?).1 rname
        = some commitid := by
  have hm : GitRepo.merge st commitid branchName message? username? useremail?
      = (setRef st rname commitid, Except.ok commitid) := by
    simp only [GitRepo.merge, hobj, hres, hcur,
      mergeAnalysis_fastforward st cur commitid hnup hff]
  refine ⟨hm, ?_, ?_⟩
  · rw [hm]
    rfl
  · rw [hm]
    exact lookupRef_setRef st rname commitid (resolveRefName_hasRef st branchName rname hres)

/-- C3 witness: in `exRepo`, `master` is at `c1`, a strict ancestor of the
merge commit `mrg`; merging `mrg` moves `refs/heads/master` to `mrg` and
creates no commit object. -/
theorem merge_fastforward_moves_ref_witness :
    resolveRefName exRepo "master" = some "refs/heads/master"
    ∧ lookupRef exRepo exRepo.head = some "c1"
    ∧ lookupObj exRepo "mrg"
        = some ⟨[("f", "1"), ("g", "2")], ["c1", "c2"], ⟨"An", "ae"⟩, "m"⟩
    ∧ reaches exRepo (reachFuel exRepo) "c1" "mrg" = false
    ∧ reaches exRepo (reachFuel exRepo) "mrg" "c1" = true
    ∧ (GitRepo.merge exRepo "mrg" "master" none none none).1.objects = exRepo.objects
    ∧ lookupRef (GitRepo.merge exRepo "mrg" "master" none none none).1 "refs/heads/master"
        = some "mrg" := by
  have h := merge_fastforward_moves_ref exRepo "mrg" "master" "refs/heads/master"
    none none none "c1" ⟨[("f", "1"), ("g", "2")], ["c1", "c2"], ⟨"An", "ae"⟩, "m"⟩
    (by decide) (by decide) (by decide) (by decide) (by decide)
  exact ⟨by decide, by decide, by decide, by decide, by decide, h.2.1, h.2.2⟩

/-- C4, counterexample to the claim as stated: in `devHeadRepo` HEAD is on
`dev` (tip `c1`) while the target branch `master` is at `b`; merging `c2`
with `branch_name='master'` is a conflict-free three-way merge that returns
the new commit `mbc1c2`, yet `refs/heads/master` still points at `b` — the
source commits onto the branch HEAD is attached to (`create_commit(
self.repository.head.name, ...)` with `parent = HEAD`), not onto the named
target branch, and the new commit's parents are `[c1, c2]` (HEAD tip first),
not `[b, c2]` as the claim's reading of `current` would require. -/
theorem merge_threeway_target_branch_counterexample :
    (GitRepo.merge devHeadRepo "c2" "master" none none none).2 = Except.ok "mbc1c2"
    ∧ lookupRef (GitRepo.merge devHeadRepo "c2" "master" none none none).1
        "refs/heads/master" = some "b"
    ∧ ("b" : String) ≠ "mbc1c2"
    ∧ ((lookupObj (GitRepo.merge devHeadRepo "c2" "master" none none none).1
          "mbc1c2").map (fun c => c.parents)) = some ["c1", "c2"]
    ∧ (["c1", "c2"] : List String) ≠ ["b", "c2"]
    ∧ lookupRef (GitRepo.merge devHeadRepo "c2" "master" none none none).1
        "refs/heads/dev" = some "mbc1c2" := by
  decide

/-- C4, amended: when the target branch is the branch HEAD is attached to
(`hres`), a three-way merge (neither up to date nor fast-forward) that has no
conflicting path creates exactly one new commit — the returned oid is absent
from the store beforehand and the store grows by one — whose parent list is
`[current tip, incoming commit]` in that order, and updates the branch's
reference to that new commit. -/
theorem merge_threeway_creates_commit
    (st : RepoState) (commitid branchName : String)
    (message? username? useremail? : Option String)
    (cur : String) (cobj : CommitObj)
    (hres : resolveRefName st branchName = some st.head)
    (hcur : lookupRef st st.head = some cur)
    (hobj : lookupObj st commitid = some cobj)
    (hnup : reaches st (reachFuel st) cur commitid = false)
    (hnff : reaches st (reachFuel st) commitid cur = false)
    (hnc : hasMergeConflict st cur commitid = false) :
    GitRepo.merge st commitid branchName message? username? useremail?
        = (setRef (addObject st (freshOid st)
              ⟨mergedTree st cur commitid, [cur, commitid],
               ⟨username?.getD st.userName, useremail?.getD st.userEmail⟩,
               message?.getD ("Merge " ++ commitid ++ " into " ++ branchName)⟩)
            st.head (freshOid st),
           Except.ok (freshOid st))
    ∧ lookupObj st (freshOid st) = none
    ∧ (GitRepo.merge st commitid branchName message? username? useremail?).1.objects.length
        = st.objects.length + 1
    ∧ lookupObj (GitRepo.merge st commitid branchName message? username? useremail?).1
          (freshOid st)
        = some ⟨mergedTree st cur commitid, [cur, commitid],
                ⟨username?.getD st.userName, useremail?.getD st.userEmail⟩,
                message?.getD ("Merge " ++ commitid ++ " into " ++ branchName)⟩
    ∧ lookupRef (GitRepo.merge st commitid branchName message? username? useremail?).1
          st.head
        = some (freshOid st) := by
  have hm : GitRepo.merge st commitid branchName message? username? useremail?
      = (setRef (addObject st (freshOid st)
            ⟨mergedTree st cur commitid, [cur, commitid],
             ⟨username?.getD st.userName, useremail?.getD st.userEmail⟩,
             message?.getD ("Merge " ++ commitid ++ " into " ++ branchName)⟩)
          st.head (freshOid st),
         Except.ok (freshOid st)) := by
    simp only [GitRepo.merge, hobj, hres, hcur,
      mergeAnalysis_normal st cur commitid hnup hnff, hnc]
    simp
  refine ⟨hm, lookupObj_freshOid st, ?_, ?_, ?_⟩
  · rw [hm]
    show (addObject st (freshOid st) _).objects.length = st.objects.length + 1
    simp [addObject]
  · rw [hm]
    show lookupObj (addObject st (freshOid st) _) (freshOid st) = _
    exact lookupObj_addObject st (freshOid st) _ (lookupObj_freshOid st)
  · rw [hm]
    refine lookupRef_setRef _ st.head (freshOid st) ?_
    show hasRef st st.head = true
    exact resolveRefName_hasRef st branchName st.head hres

/-- C4 witness for the amended claim: in `exRepo` (HEAD on `master` at
`c1`), merging `c2` three-way creates the single new commit `mbc1c2ccmrg`
with parents `[c1, c2]` and moves `refs/heads/master` to it. -/
theorem merge_threeway_creates_commit_witness :
    resolveRefName exRepo "master" = some exRepo.head
    ∧ lookupRef exRepo exRepo.head = some "c1"
    ∧ lookupObj exRepo "c2" = some ⟨[("f", "0"), ("g", "2")], ["b"], ⟨"An", "ae"⟩, "two"⟩
    ∧ reaches exRepo (reachFuel exRepo) "c1" "c2" = false
    ∧ reaches exRepo (reachFuel exRepo) "c2" "c1" = false
    ∧ hasMergeConflict exRepo "c1" "c2" = false
    ∧ lookupObj exRepo (freshOid exRepo) = none
    ∧ (GitRepo.merge exRepo "c2" "master" none none none).1.objects.length
        = exRepo.objects.length + 1
    ∧ lookupRef (GitRepo.merge exRepo "c2" "master" none none none).1 exRepo.head
        = some (freshOid exRepo) := by
  have h := merge_threeway_creates_commit exRepo "c2" "master" none none none "c1"
    ⟨[("f", "0"), ("g", "2")], ["b"], ⟨"An", "ae"⟩, "two"⟩
    (by decide) (by decide) (by decide) (by decide) (by decide) (by decide)
  exact ⟨by decide, by decide, by decide, by decide, by decide, by decide,
    h.2.1, h.2.2.1, h.2.2.2.2⟩

/-- C5: the scope flags `list_branches` accepts are exactly `local`,
`remote` and `all`; a missing argument defaults to `all`; any other value
fails with `ValueError` whose message spells out the allowed set
`['remote', 'local', 'all']`; each valid value returns the branches of its
scope (`all` returning local and remote together). -/
theorem list_branches_scope_flags (st : RepoState) (status? : Option String) :
    ((∃ l, GitRepo.list_branches st status? = Except.ok l)
        ↔ (status?.getD "all") ∈ statuses)
    ∧ ((status?.getD "all") ∉ statuses →
        GitRepo.list_branches st status?
          = Except.error (PyErr.valueError "status is not in ['remote', 'local', 'all']"))
    ∧ GitRepo.list_branches st none
        = Except.ok (localBranchNames st ++ remoteBranchNames st)
    ∧ GitRepo.list_branches st (some "all")
        = Except.ok (localBranchNames st ++ remoteBranchNames st)
    ∧ GitRepo.list_branches st (some "local") = Except.ok (localBranchNames st)
    ∧ GitRepo.list_branches st (some "remote") = Except.ok (remoteBranchNames st) := by
  have hmem : ∀ s : String, statuses.contains s = true ↔ s ∈ statuses :=
    fun s => List.elem_iff
  refine ⟨?_, ?_, by rfl, by rfl, by rfl, by rfl⟩
  · constructor
    · rintro ⟨l, hl⟩
      by_cases hc : statuses.contains (status?.getD "all") = true
      · exact (hmem _).mp hc
      · unfold GitRepo.list_branches at hl
        rw [if_neg hc] at hl
        cases hl
    · intro hin
      have hc : statuses.contains (status?.getD "all") = true := (hmem _).mpr hin
      unfold GitRepo.list_branches
      rw [if_pos hc]
      by_cases h1 : ((status?.getD "all") == "remote") = true
      · rw [if_pos h1]
        exact ⟨_, rfl⟩
      · rw [if_neg h1]
        by_cases h2 : ((status?.getD "all") == "local") = true
        · rw [if_pos h2]
          exact ⟨_, rfl⟩
        · rw [if_neg h2]
          exact ⟨_, rfl⟩
  · intro hout
    have hc : ¬(statuses.contains (status?.getD "all") = true) :=
      fun hc => hout ((hmem _).mp hc)
    unfold GitRepo.list_branches
    rw [if_neg hc]

/-- C5 witness: on `exRepo` the default call lists local then remote
branches, each scope flag works, and the unknown flag `bogus` fails with the
`ValueError` naming the allowed set. -/
theorem list_branches_scope_flags_witness :
    (("bogus" : String) ∉ statuses)
    ∧ GitRepo.list_branches exRepo (some "bogus")
        = Except.error (PyErr.valueError "status is not in ['remote', 'local', 'all']")
    ∧ GitRepo.list_branches exRepo none = Except.ok ["master", "dev", "origin/master"]
    ∧ GitRepo.list_branches exRepo (some "local") = Except.ok ["master", "dev"]
    ∧ GitRepo.list_branches exRepo (some "remote") = Except.ok ["origin/master"] :=
  ⟨by decide,
   (list_branches_scope_flags exRepo (some "bogus")).2.1 (by decide),
   by decide, by decide, by decide⟩

/-- C6: `get_patch` renders exactly the concatenation of the spec's text
blocks (`specPatchBlocks`, whose subject line carries the `[PATCH i/N]`
prefix precisely when more than one commit is rendered), and every block
whose unified diff text ends with a newline itself ends with a blank line,
so in the concatenation a blank line stands between consecutive blocks. -/
theorem get_patch_renders_blocks (cs : List PatchCommit) (_h : cs ≠ []) :
    GitRepo.get_patch cs = String.join (specPatchBlocks cs)
    ∧ (∀ (n i : Nat) (c : PatchCommit) (t : String),
        c.patchText = t ++ "\n" → ∃ s, specBlock n i c = s ++ "\n\n") := by
  constructor
  · have h1 : GitRepo.get_patch cs
        = cs.enum.foldl (fun acc ic => acc ++ renderOne cs.length ic.1 ic.2) "" := rfl
    have h2 : specPatchBlocks cs
        = cs.enum.map (fun ic => specBlock cs.length ic.1 ic.2) := rfl
    have h3 : (fun (ic : Nat × PatchCommit) => renderOne cs.length ic.1 ic.2)
        = (fun ic => specBlock cs.length ic.1 ic.2) :=
      funext (fun ic => renderOne_eq_specBlock cs.length ic.1 ic.2)
    rw [h1, foldl_render, String.empty_append, h2, h3]
  · intro n i c t ht
    unfold specBlock
    rw [ht, append_tail_blank]
    exact ⟨_, rfl⟩

/-- The first commit of the C6 witness: a two-line message and a diff text
ending in a newline. -/
def p1ex : PatchCommit :=
  ⟨"id1", "An", "ae", "D1", "subj\nbody\n", "diffa\n"⟩

/-- The second commit of the C6 witness: a single-line message. -/
def p2ex : PatchCommit :=
  ⟨"id2", "An", "ae", "D2", "only", "diffb\n"⟩

/-- C6 witness: on a two-commit series the rendering equals the joined spec
blocks and the first block ends with a blank line before the second. -/
theorem get_patch_renders_blocks_witness :
    ([p1ex, p2ex] ≠ ([] : List PatchCommit))
    ∧ GitRepo.get_patch [p1ex, p2ex] = String.join (specPatchBlocks [p1ex, p2ex])
    ∧ (∃ s, specBlock 2 0 p1ex = s ++ "\n\n") :=
  ⟨by decide,
   (get_patch_renders_blocks [p1ex, p2ex] (by decide)).1,
   (get_patch_renders_blocks [p1ex, p2ex] (by decide)).2 2 0 p1ex "diffa" (by decide)⟩

/-- C7: the two-commit form of `diff` resolves both commits and diffs their
trees directly; no ancestry between the commits is consulted, so commits of
unrelated histories diff without any ancestry-related failure. -/
theorem diff_two_commits_ignores_ancestry (st : RepoState) (cid1 cid2 : String)
    (o1 o2 : CommitObj)
    (h1 : lookupObj st cid1 = some o1) (h2 : lookupObj st cid2 = some o2) :
    GitRepo.diff st (some cid1) (some cid2)
      = Except.ok (DiffVal.diffObj (treeDiff o1.tree o2.tree)) := by
  simp only [GitRepo.diff, h1, h2]

/-- C7 witness: in `twoRootRepo` the commits `r1` and `r2` are parentless
roots with no common ancestor (`mergeBase` is `none`, neither reaches the
other) and `diff` still succeeds on them. -/
theorem diff_two_commits_ignores_ancestry_witness :
    lookupObj twoRootRepo "r1" = some ⟨[("a", "1")], [], ⟨"An", "ae"⟩, "r1"⟩
    ∧ lookupObj twoRootRepo "r2" = some ⟨[("a", "2")], [], ⟨"An", "ae"⟩, "r2"⟩
    ∧ mergeBase twoRootRepo "r1" "r2" = none
    ∧ reaches twoRootRepo (reachFuel twoRootRepo) "r1" "r2" = false
    ∧ reaches twoRootRepo (reachFuel twoRootRepo) "r2" "r1" = false
    ∧ GitRepo.diff twoRootRepo (some "r1") (some "r2")
        = Except.ok (DiffVal.diffObj (treeDiff [("a", "1")] [("a", "2")])) :=
  ⟨by decide, by decide, by decide, by decide, by decide,
   diff_two_commits_ignores_ancestry twoRootRepo "r1" "r2"
     ⟨[("a", "1")], [], ⟨"An", "ae"⟩, "r1"⟩ ⟨[("a", "2")], [], ⟨"An", "ae"⟩, "r2"⟩
     (by decide) (by decide)⟩

theorem head_of_branch_resolved (st : RepoState) (name r : String)
    (h : resolveBranch st name = some r) :
    GitRepo.head_of_branch st name ≠ Except.error PyErr.noSuchBranch := by
  unfold GitRepo.head_of_branch
  rw [h]
  cases hlr : lookupRef st r with
  | none => simp [hlr]
  | some oid =>
      cases hlo : lookupObj st oid with
      | none => simp [hlr, hlo]
      | some c => simp [hlr, hlo]

/-- C8: `checkout` and `head_of_branch` fail with `NoSuchBranchError` (a
typed failure delivered to the caller) precisely when the name resolves to
neither a local nor a remote branch, and the local lookup is consulted
first: when a local branch exists, `checkout` moves HEAD to it. -/
theorem checkout_head_of_branch_lookup (st : RepoState) (name : String) :
    ((GitRepo.checkout st name).2 = Except.error PyErr.noSuchBranch
        ↔ lookup_branch st name false = none ∧ lookup_branch st name true = none)
    ∧ (GitRepo.head_of_branch st name = Except.error PyErr.noSuchBranch
        ↔ lookup_branch st name false = none ∧ lookup_branch st name true = none)
    ∧ (∀ r, lookup_branch st name false = some r →
        GitRepo.checkout st name = ({ st with head := r }, Except.ok ())) := by
  cases hl : lookup_branch st name false with
  | some r =>
      have hres : resolveBranch st name = some r := by
        unfold resolveBranch
        rw [hl]
      have hck : GitRepo.checkout st name = ({ st with head := r }, Except.ok ()) := by
        unfold GitRepo.checkout
        rw [hres]
      have hhb := head_of_branch_resolved st name r hres
      refine ⟨?_, ?_, ?_⟩
      · constructor
        · intro hc
          rw [hck] at hc
          exact absurd hc (by simp)
        · rintro ⟨h1, _⟩
          exact Option.noConfusion h1
      · constructor
        · intro hc
          exact absurd hc hhb
        · rintro ⟨h1, _⟩
          exact Option.noConfusion h1
      · intro r2 hr2
        rw [hck, Option.some.inj hr2]
  | none =>
      cases hr : lookup_branch st name true with
      | some r =>
          have hres : resolveBranch st name = some r := by
            unfold resolveBranch
            rw [hl, hr]
          have hck : GitRepo.checkout st name = ({ st with head := r }, Except.ok ()) := by
            unfold GitRepo.checkout
            rw [hres]
          have hhb := head_of_branch_resolved st name r hres
          refine ⟨?_, ?_, ?_⟩
          · constructor
            · intro hc
              rw [hck] at hc
              exact absurd hc (by simp)
            · rintro ⟨_, h2⟩
              exact Option.noConfusion h2
          · constructor
            · intro hc
              exact absurd hc hhb
            · rintro ⟨_, h2⟩
              exact Option.noConfusion h2
          · intro r2 hr2
            exact Option.noConfusion hr2
      | none =>
          have hres : resolveBranch st name = none := by
            unfold resolveBranch
            rw [hl, hr]
          refine ⟨?_, ?_, ?_⟩
          · constructor
            · intro _
              exact ⟨rfl, rfl⟩
            · intro _
              unfold GitRepo.checkout
              rw [hres]
          · constructor
            · intro _
              exact ⟨rfl, rfl⟩
            · intro _
              unfold GitRepo.head_of_branch
              rw [hres]
          · intro r2 hr2
            exact Option.noConfusion hr2

/-- C8 witness: in `exRepo` the unknown name `nope` makes both operations
fail with `NoSuchBranchError`, the remote-only name `origin/master` does
not, and `dev`, which exists locally, is checked out to its local ref. -/
theorem checkout_head_of_branch_lookup_witness :
    (lookup_branch exRepo "nope" false = none ∧ lookup_branch exRepo "nope" true = none)
    ∧ (GitRepo.checkout exRepo "nope").2 = Except.error PyErr.noSuchBranch
    ∧ GitRepo.head_of_branch exRepo "nope" = Except.error PyErr.noSuchBranch
    ∧ ¬ GitRepo.head_of_branch exRepo "origin/master" = Except.error PyErr.noSuchBranch
    ∧ lookup_branch exRepo "dev" false = some "refs/heads/dev"
    ∧ GitRepo.checkout exRepo "dev"
        = ({ exRepo with head := "refs/heads/dev" }, Except.ok ()) :=
  ⟨⟨by decide, by decide⟩,
   ((checkout_head_of_branch_lookup exRepo "nope").1).mpr ⟨by decide, by decide⟩,
   ((checkout_head_of_branch_lookup exRepo "nope").2.1).mpr ⟨by decide, by decide⟩,
   fun hc => by
     have := ((checkout_head_of_branch_lookup exRepo "origin/master").2.1).mp hc
     exact absurd this.2 (by decide),
   by decide,
   (checkout_head_of_branch_lookup exRepo "dev").2.2 "refs/heads/dev" (by decide)⟩

/-- C9: `diff` called with a single commit id that resolves to a merge
commit (more than one parent) returns the plain empty string, not a diff
object and not an error. -/
theorem diff_merge_commit_empty_string (st : RepoState) (cid : String)
    (co : CommitObj) (h : lookupObj st cid = some co)
    (hp : co.parents.length > 1) :
    GitRepo.diff st (some cid) none = Except.ok (DiffVal.text "") := by
  have h0 : GitRepo.diff st (some cid) none
      = (match lookupObj st cid with
         | none => Except.error PyErr.noSuchRef
         | some commit =>
             if commit.parents.length > 1 then Except.ok (DiffVal.text "")
             else if commit.parents.length == 1 then
               match lookupObj st (commit.parents.headD "") with
               | none => Except.error PyErr.keyError
               | some parent =>
                   Except.ok (DiffVal.diffObj (treeDiff parent.tree commit.tree))
             else Except.ok (DiffVal.diffObj (treeDiff [] commit.tree))) := rfl
  rw [h0, h]
  show (if co.parents.length > 1 then Except.ok (DiffVal.text "")
        else if co.parents.length == 1 then
          match lookupObj st (co.parents.headD "") with
          | none => Except.error PyErr.keyError
          | some parent => Except.ok (DiffVal.diffObj (treeDiff parent.tree co.tree))
        else Except.ok (DiffVal.diffObj (treeDiff [] co.tree)))
      = Except.ok (DiffVal.text "")
  rw [if_pos hp]

/-- C9 witness: `mrg` in `exRepo` has the two parents `c1` and `c2`, and the
single-commit diff of it is the empty string. -/
theorem diff_merge_commit_empty_string_witness :
    lookupObj exRepo "mrg"
        = some ⟨[("f", "1"), ("g", "2")], ["c1", "c2"], ⟨"An", "ae"⟩, "m"⟩
    ∧ (["c1", "c2"] : List String).length > 1
    ∧ GitRepo.diff exRepo (some "mrg") none = Except.ok (DiffVal.text "") :=
  ⟨by decide, by decide,
   diff_merge_commit_empty_string exRepo "mrg"
     ⟨[("f", "1"), ("g", "2")], ["c1", "c2"], ⟨"An", "ae"⟩, "m"⟩
     (by decide) (by decide)⟩

/-- C10: every library-specific exception the embedded operations raise —
`NoSuchRefError`, `NoSuchBranchError`, `NothingToMergeError`,
`MergeConflictsError` — is a strict subclass of `PyGitUtilsError` (so one
`except PyGitUtilsError` catches them all), none of them is the base class
itself, and each carries a non-empty `message` attribute. -/
theorem library_errors_subclass (e : PyErr) (c : ExcClass)
    (h : raisedClass e = some c) :
    isSubclassOf c ExcClass.pyGitUtilsError = true
    ∧ c ≠ ExcClass.pyGitUtilsError
    ∧ ∃ m, classMessage c = some m ∧ 0 < m.length := by
  cases e with
  | noSuchRef =>
      cases h
      exact ⟨by decide, by decide, "This reference could not be found", by decide, by decide⟩
  | noSuchBranch =>
      cases h
      exact ⟨by decide, by decide, "This branch could not be found", by decide, by decide⟩
  | nothingToMerge =>
      cases h
      exact ⟨by decide, by decide,
        "Nothing to merge, these branches are already in sync", by decide, by decide⟩
  | mergeConflicts =>
      cases h
      exact ⟨by decide, by decide,
        "Can not merge these branches, there is a conflict", by decide, by decide⟩
  | keyError => cases h
  | valueError m => cases h

/-- C10 witness: `NoSuchRefError` is a raised library error, a strict
subclass of `PyGitUtilsError` with a non-empty message. -/
theorem library_errors_subclass_witness :
    raisedClass PyErr.noSuchRef = some ExcClass.noSuchRefError
    ∧ (isSubclassOf ExcClass.noSuchRefError ExcClass.pyGitUtilsError = true
       ∧ ExcClass.noSuchRefError ≠ ExcClass.pyGitUtilsError
       ∧ ∃ m, classMessage ExcClass.noSuchRefError = some m ∧ 0 < m.length) :=
  ⟨rfl, library_errors_subclass PyErr.noSuchRef ExcClass.noSuchRefError rfl⟩
